import Mathlib

/-!
# Scorch segment snapshots and the merger

A shallow embedding of `index/scorch/snapshot_segment.go` and
`index/scorch/merge.go`.

Conventions of the embedding:

* a `*roaring.Bitmap` is a finite set of document numbers (`Finset Nat`); a nil
  pointer is `none`;
* a Go `uint64` is a `Nat`, with `% 2 ^ 64` written out where the code subtracts;
* a Go `(value, error)` result is an `Except Err value`;
* a Go `map[uint64]T` is a function `Nat → Option T`;
* collaborators that live outside these two files (the segment implementation,
  the zap writer, the merge planner) are fields or parameters.
-/

namespace Scorch

/-- Go `error` values, identified by their message. -/
abbrev Err := String

/-- Set of document numbers held by a `*roaring.Bitmap`. The library stores
`uint32` values and converts the bounds of a range it is asked to add to
`uint32` (see `addRangeFromZero`). -/
abbrev Bitmap := Finset Nat

/-- Term of a field: the bytes of a Go `string`. -/
abbrev Term := List Nat

/-- The package variable `ByteSeparator`. -/
def ByteSeparator : Nat := 0xff

/-- Modulus of `uint64` arithmetic. -/
def uint64Size : Nat := 2 ^ 64

/-- Modulus of `uint32` arithmetic, the number of values a roaring bitmap can hold. -/
def uint32Size : Nat := 2 ^ 32

/-- Subtraction of two `uint64` values, wrapping around as Go does. -/
def subUint64 (a b : Nat) : Nat := (a + (uint64Size - b % uint64Size)) % uint64Size

/-- What a `segment.PostingsIterator` yields: the document numbers returned by
successive `Next()` calls, then either the end (`nil, nil`) or an error. -/
structure PostingsList where
  numbers : List Nat
  err : Option Err

/-- What a `segment.DictionaryIterator` yields: the terms returned by successive
`Next()` calls, then either the end (`nil, nil`) or an error. -/
structure DictionaryIterator where
  terms : List Term
  err : Option Err

/-- The interface `segment.TermDictionary`. -/
structure TermDictionary where
  PostingsList : Term → Option Bitmap → Except Err PostingsList
  Iterator : DictionaryIterator

/-- The interface `segment.Segment`; `isZap` records whether the dynamic type is
`*zap.Segment` (a persisted segment), which the merger tests with a type assertion. -/
structure Segment where
  isZap : Bool
  Count : Nat
  Fields : List String
  Dictionary : String → Except Err TermDictionary
  DocNumbers : List String → Except Err Bitmap

/-- The struct `SegmentSnapshot` (the notification channels and the docs cache
are left out: none of the methods below reads them). -/
structure SegmentSnapshot where
  id : Nat
  segment : Segment
  deleted : Option Bitmap

/-- The struct `SegmentDictionarySnapshot`. -/
structure SegmentDictionarySnapshot where
  s : SegmentSnapshot
  d : TermDictionary

/-- `(*roaring.Bitmap).AndNot` applied when the argument pointer is not nil. -/
def andNotDeleted (rv : Bitmap) (deleted : Option Bitmap) : Bitmap :=
  match deleted with
  | some d => rv \ d
  | none => rv

/-- `SegmentDictionarySnapshot.PostingsList`. -/
def SegmentDictionarySnapshot.PostingsList (s : SegmentDictionarySnapshot)
    (term : Term) (_except : Option Bitmap) : Except Err Scorch.PostingsList :=
  s.d.PostingsList term s.s.deleted

/-- `SegmentDictionarySnapshot.Iterator`. -/
def SegmentDictionarySnapshot.Iterator (s : SegmentDictionarySnapshot) : DictionaryIterator :=
  s.d.Iterator

/-- `SegmentSnapshot.Count`. -/
def SegmentSnapshot.Count (s : SegmentSnapshot) : Nat :=
  let rv := s.segment.Count
  match s.deleted with
  | some d => subUint64 rv (d.card % uint64Size)
  | none => rv

/-- `SegmentSnapshot.Dictionary`. -/
def SegmentSnapshot.Dictionary (s : SegmentSnapshot) (field : String) :
    Except Err SegmentDictionarySnapshot :=
  match s.segment.Dictionary field with
  | .error err => .error err
  | .ok d => .ok { s := s, d := d }

/-- `SegmentSnapshot.DocNumbers`. -/
def SegmentSnapshot.DocNumbers (s : SegmentSnapshot) (docIDs : List String) :
    Except Err Bitmap :=
  match s.segment.DocNumbers docIDs with
  | .error err => .error err
  | .ok rv => .ok (andNotDeleted rv s.deleted)

/-- `(*roaring.Bitmap).AddRange(0, rangeEnd)` with a `uint64` argument: nothing
is added when `rangeEnd` is 0; otherwise the library converts `rangeEnd - 1` to
`uint32` and adds every value from 0 up to and including the converted bound. -/
def addRangeFromZero (rv : Bitmap) (rangeEnd : Nat) : Bitmap :=
  if rangeEnd = 0 then rv
  else rv ∪ Finset.range ((rangeEnd - 1) % uint32Size + 1)

/-- `SegmentSnapshot.DocNumbersLive`: `AddRange(0, count)` on a fresh bitmap,
then `AndNot` of the deleted bitmap. -/
def SegmentSnapshot.DocNumbersLive (s : SegmentSnapshot) : Bitmap :=
  let rv : Bitmap := addRangeFromZero ∅ s.segment.Count
  andNotDeleted rv s.deleted

/-- `SegmentSnapshot.Fields`. -/
def SegmentSnapshot.Fields (s : SegmentSnapshot) : List String :=
  s.segment.Fields

/-! ### The per-field docs cache (`snapshot_segment.go`) -/

/-- Assignment `m[k] = v` on a Go map. -/
def mapSet {α : Type} (m : Nat → Option α) (k : Nat) (v : α) : Nat → Option α :=
  fun j => if j = k then some v else m j

/-- The struct `cachedFieldDocs`; `ready` records that `readyCh` has been closed. -/
structure cachedFieldDocs where
  ready : Bool
  err : Option Err
  docs : Nat → Option (List Nat)

/-- The inner loop of `cachedFieldDocs.prepareFields` over one postings iterator.
It returns the updated map and the value of `err2` when the loop stops. -/
def scanPostings (docNum : Nat) (term : Term) (err : Option Err) :
    List Nat → (Nat → Option (List Nat)) → (Nat → Option (List Nat)) × Option Err
  | [], docs => (docs, err)
  | number :: rest, docs =>
    if number ≤ subUint64 docNum 1 then
      if number = subUint64 docNum 1 then
        let termBytes := term ++ [ByteSeparator]
        scanPostings docNum term err rest
          (mapSet docs docNum ((docs docNum).getD [] ++ termBytes))
      else
        scanPostings docNum term err rest docs
    else
      (docs, none)

/-- The outer loop of `cachedFieldDocs.prepareFields` over the dictionary iterator. -/
def scanTerms (dict : TermDictionary) (docNum : Nat) :
    List Term → cachedFieldDocs → cachedFieldDocs
  | [], cfd => cfd
  | term :: rest, cfd =>
    match dict.PostingsList term none with
    | .error err1 => scanTerms dict docNum rest { cfd with err := some err1 }
    | .ok postings =>
      match scanPostings docNum term postings.err postings.numbers cfd.docs with
      | (docs, some err2) => scanTerms dict docNum rest { cfd with docs := docs, err := some err2 }
      | (docs, none) => scanTerms dict docNum rest { cfd with docs := docs }

/-- `cachedFieldDocs.prepareFields`: the filled cache entry and the returned error. -/
def cachedFieldDocs.prepareFields (cfd : cachedFieldDocs) (docNum : Nat) (field : String)
    (ss : SegmentSnapshot) : cachedFieldDocs × Option Err :=
  match ss.segment.Dictionary field with
  | .error err => ({ cfd with err := some err, ready := true }, some err)
  | .ok dict =>
    let cfd1 := scanTerms dict docNum dict.Iterator.terms cfd
    ({ cfd1 with ready := true }, none)

/-- The entry `&cachedFieldDocs{readyCh: make(chan struct{}), docs: make(map[uint64][]byte)}`
that `cachedDocs.prepareFields` creates before it starts the fill. -/
def cachedFieldDocs.fresh : cachedFieldDocs :=
  { ready := false, err := none, docs := fun _ => none }

/-! ### The merger (`merge.go`) -/

/-- The struct `IndexSnapshot`, as far as the merger reads it. -/
structure IndexSnapshot where
  segment : List SegmentSnapshot
  epoch : Nat

/-- Values of the interface `mergeplan.Segment`: a `*SegmentSnapshot`, or any
other implementation, of which only `Id()` is used. -/
inductive PlanSegment where
  | snapshot (ss : SegmentSnapshot)
  | other (id : Nat)

/-- The method `Id()` of `mergeplan.Segment`. -/
def PlanSegment.Id : PlanSegment → Nat
  | .snapshot ss => ss.id
  | .other id => id

/-- The struct `mergeplan.MergeTask`. -/
structure MergeTask where
  Segments : List PlanSegment

/-- The struct `mergeplan.MergePlan`. -/
structure MergePlan where
  Tasks : List MergeTask

/-- The struct `segmentMerge`; `new` is nil when `zap.Open` returned no segment,
and the notification channel is identified by the record's id. -/
structure segmentMerge where
  id : Nat
  old : Nat → Option SegmentSnapshot
  oldNewDocNums : Nat → Option (List Nat)
  new : Option Segment

/-- Functions of other packages that the merger calls. -/
structure Collaborators where
  NumCPU : Int
  zapFileName : Nat → String
  Merge : List Segment → List (Option Bitmap) → String → Nat → List (List Nat) × Option Err
  Open : String → Option Segment × Option Err

/-- `getWorkerCount`, with `runtime.NumCPU()` as a parameter. -/
def getWorkerCount (ncpu : Int) (taskCount : Int) : Int :=
  if taskCount < ncpu then taskCount else ncpu

/-- What the first loop of a merge worker collects from `task.Segments`. -/
structure MergeInputs where
  oldMap : Nat → Option SegmentSnapshot
  segmentsToMerge : List SegmentSnapshot
  docsToDrop : List (Option Bitmap)

/-- The loop `for _, planSegment := range task.Segments` of a merge worker. The
snapshots whose segment is a `*zap.Segment` are kept whole in `segmentsToMerge`,
so that their ids stay visible; `zap.Merge` receives their `segment` fields. -/
def collectSegments : List PlanSegment → MergeInputs → MergeInputs
  | [], acc => acc
  | .snapshot segSnapshot :: rest, acc =>
    let oldMap := mapSet acc.oldMap segSnapshot.id segSnapshot
    if segSnapshot.segment.isZap then
      collectSegments rest
        { oldMap := oldMap,
          segmentsToMerge := acc.segmentsToMerge ++ [segSnapshot],
          docsToDrop := acc.docsToDrop ++ [segSnapshot.deleted] }
    else
      collectSegments rest { acc with oldMap := oldMap }
  | .other _ :: rest, acc => collectSegments rest acc

/-- The loop `for i, segNewDocNums := range newDocNums`, started at index `i`;
`none` is the index-out-of-range failure of `task.Segments[i]`. -/
def recordDocNums (segments : List PlanSegment) :
    Nat → List (List Nat) → (Nat → Option (List Nat)) → Option (Nat → Option (List Nat))
  | _, [], m => some m
  | i, segNewDocNums :: rest, m =>
    match segments[i]? with
    | none => none
    | some seg => recordDocNums segments (i + 1) rest (mapSet m seg.Id segNewDocNums)

/-- The part of the index state a merge worker reads and writes: the segment id
counter, the calls made to mark and unmark files, the errors buffered in
`responseCh` and the capacity that channel was made with, the records received
by the introducer on `s.merges`, and the notification channels appended to
`notifications`. -/
structure MergerState where
  nextSegmentID : Nat
  marked : List String
  unmarked : List String
  responseCh : List Err
  responseCap : Nat
  merges : List segmentMerge
  notifications : List Nat

/-- The send `responseCh <- err` of a merge worker. Nothing receives from
`responseCh` before every worker is done, so a send on the full channel never
completes: that is `none`. -/
def sendResponse (st : MergerState) (err : Err) : Option MergerState :=
  if st.responseCh.length < st.responseCap then
    some { st with responseCh := st.responseCh ++ [err] }
  else
    none

/-- The body of the worker loop `for task := range requestCh` for one task.
`closing` tells whether the final `select` takes the `closeCh` branch; the Bool
of the result tells whether the worker returned there. `none` means that the
worker never finishes the body: an index expression fails at run time, or a
send on the full `responseCh` never completes. -/
def mergeOneTask (c : Collaborators) (path : String) (closing : Bool) (st : MergerState)
    (task : MergeTask) : Option (MergerState × segmentMerge × Bool) :=
  let newSegmentID := (st.nextSegmentID + 1) % uint64Size
  let st := { st with nextSegmentID := newSegmentID }
  let inputs := collectSegments task.Segments
    { oldMap := fun _ => none, segmentsToMerge := [], docsToDrop := [] }
  let filename := c.zapFileName newSegmentID
  let st := { st with marked := st.marked ++ [filename] }
  let path := path ++ "/" ++ filename
  let (newDocNums, err) :=
    c.Merge (inputs.segmentsToMerge.map (·.segment)) inputs.docsToDrop path 1024
  let afterMerge : Option MergerState :=
    match err with
    | some e =>
      sendResponse { st with unmarked := st.unmarked ++ [filename] } ("merging failed: " ++ e)
    | none => some st
  match afterMerge with
  | none => none
  | some st =>
    let (segment, err) := c.Open path
    let afterOpen : Option MergerState :=
      match err with
      | some e => sendResponse { st with unmarked := st.unmarked ++ [filename] } e
      | none => some st
    match afterOpen with
    | none => none
    | some st =>
      let st := { st with notifications := st.notifications ++ [newSegmentID] }
      match recordDocNums task.Segments 0 newDocNums (fun _ => none) with
      | none => none
      | some oldNewDocNums =>
        let sm : segmentMerge :=
          { id := newSegmentID, old := inputs.oldMap, oldNewDocNums := oldNewDocNums,
            new := segment }
        if closing then
          some (st, sm, true)
        else
          some ({ st with merges := st.merges ++ [sm] }, sm, false)

/-- The workers of `mergeTasks` draining `requestCh`, one task after the other:
`workers` is the number of workers that have not returned, `closing` gives the
branch taken by the final `select` for each task in turn. -/
def runWorkers (c : Collaborators) (path : String) :
    Nat → List Bool → List MergeTask → MergerState → Option MergerState
  | 0, _, _, st => some st
  | _, _, [], st => some st
  | workers + 1, closing, task :: rest, st =>
    match mergeOneTask c path (closing.headD false) st task with
    | none => none
    | some (st1, _, true) => runWorkers c path workers closing.tail rest st1
    | some (st1, _, false) => runWorkers c path (workers + 1) closing.tail rest st1

/-- `Scorch.mergeTasks`: the returned errors and the state left behind.
`closedAtAck` tells whether `closeCh` wins a `select` while the acknowledgements
of the introducer are awaited. `none` means that `mergeTasks` does not return,
because a worker never finishes a task. -/
def mergeTasks (c : Collaborators) (path : String) (closing : List Bool) (closedAtAck : Bool)
    (st : MergerState) (plan : MergePlan) : Option (List Err × MergerState) :=
  let size : Int := plan.Tasks.length
  let nWorkers := getWorkerCount c.NumCPU size
  let st := { st with responseCh := [], responseCap := plan.Tasks.length, notifications := [] }
  match runWorkers c path nWorkers.toNat closing plan.Tasks st with
  | none => none
  | some st1 =>
    if st1.notifications ≠ [] ∧ closedAtAck then
      some ([], st1)
    else
      some (st1.responseCh, st1)

/-- The loop of `planMergeAtSnapshot` that builds `onlyZapSnapshots`. -/
def onlyZapSnapshots : List SegmentSnapshot → List SegmentSnapshot → List SegmentSnapshot
  | [], acc => acc
  | segmentSnapshot :: rest, acc =>
    if segmentSnapshot.segment.isZap then
      onlyZapSnapshots rest (acc ++ [segmentSnapshot])
    else
      onlyZapSnapshots rest acc

/-- The text of the error `planMergeAtSnapshot` builds from the errors of
`mergeTasks` with the format `"merge: mergeTasks errors: %d, %#v"`: the number of
errors, then the Go syntax of the string slice `text`. `quote` is the Go syntax
of one string, which the `fmt` package produces for `%#v`. -/
def mergeTasksErrorText (quote : String → String) (errs : List Err) : Err :=
  let text := errs.enum.map fun p => "#" ++ toString p.1 ++ ": " ++ p.2 ++ "\n"
  "merge: mergeTasks errors: " ++ toString errs.length ++ ", " ++
    "[]string\x7b" ++ ", ".intercalate (text.map quote) ++ "\x7d"

/-- `Scorch.planMergeAtSnapshot`: the returned error (nil is `none`) and the
state. `Plan` is `mergeplan.Plan` applied to the candidates and nil options;
`quote` is the Go syntax of a string (see `mergeTasksErrorText`). -/
def planMergeAtSnapshot (Plan : List PlanSegment → Except Err (Option MergePlan))
    (quote : String → String) (c : Collaborators) (path : String) (closing : List Bool)
    (closedAtAck : Bool) (st : MergerState) (ourSnapshot : IndexSnapshot) :
    Option (Option Err × MergerState) :=
  let candidates := onlyZapSnapshots ourSnapshot.segment []
  match Plan (candidates.map PlanSegment.snapshot) with
  | .error err => some (some ("merge planning err: " ++ err), st)
  | .ok none => some (none, st)
  | .ok (some resultMergePlan) =>
    match mergeTasks c path closing closedAtAck st resultMergePlan with
    | none => none
    | some (errs, st1) =>
      if errs.length > 0 then
        some (some (mergeTasksErrorText quote errs), st1)
      else
        some (none, st1)

/-- Events of the merger loop that the index and the environment observe. -/
inductive LoopEvent where
  | addRef (epoch : Nat)
  | decRef (epoch : Nat)
  | planMerge (epoch : Nat)
  | fireAsyncError (err : Err)
  | fireMergerProgress
  | offerNotify
  | awaitNotify
  | continueOuter
  | breakOuter
  | endOfBody
  | asyncTasksDone
  deriving DecidableEq, Repr

/-- What the environment decides during one pass through the body of the
merger loop: the branches taken by the three `select` statements, the root
snapshot read under the lock at each of the two reads, and the error returned
by `planMergeAtSnapshot` at each of the two calls. -/
structure LoopStep where
  closedAtTop : Bool
  root1 : IndexSnapshot
  planErr1 : Option Err
  closedAtOffer : Bool
  root2 : IndexSnapshot
  planErr2 : Option Err
  closedAtAwait : Bool

/-- The body of the merger loop from the first `_ = ourSnapshot.DecRef()` that
follows the first planning block down to the end of the body; `tr` holds the
events so far and `last` is `lastEpochMergePlanned`. -/
def mergerIterationRest (env : LoopStep) (tr : List LoopEvent) (last : Nat) :
    List LoopEvent × Nat × Bool :=
  let tr := tr ++ [.decRef env.root1.epoch, .offerNotify]
  if env.closedAtOffer then
    (tr ++ [.breakOuter], last, false)
  else
    let ourSnapshot := env.root2
    let tr := tr ++ [.addRef ourSnapshot.epoch]
    if ourSnapshot.epoch ≠ last then
      match env.planErr2 with
      | some _ =>
        (tr ++ [.planMerge ourSnapshot.epoch, .decRef ourSnapshot.epoch, .continueOuter],
          last, true)
      | none =>
        let tr := tr ++ [.planMerge ourSnapshot.epoch, .fireMergerProgress,
                         .decRef ourSnapshot.epoch, .awaitNotify]
        if env.closedAtAwait then
          (tr ++ [.breakOuter], ourSnapshot.epoch, false)
        else
          (tr ++ [.endOfBody], ourSnapshot.epoch, true)
    else
      let tr := tr ++ [.decRef ourSnapshot.epoch, .awaitNotify]
      if env.closedAtAwait then
        (tr ++ [.breakOuter], last, false)
      else
        (tr ++ [.endOfBody], last, true)

/-- One pass through the body of `for { select { ... } }` in `mergerLoop`,
started with `lastEpochMergePlanned`. The result is the events in program order,
the new `lastEpochMergePlanned`, and whether the loop goes on (`true`) or was
left by `break OUTER` (`false`). -/
def mergerIteration (lastEpochMergePlanned : Nat) (env : LoopStep) :
    List LoopEvent × Nat × Bool :=
  if env.closedAtTop then
    ([.breakOuter], lastEpochMergePlanned, false)
  else
    let ourSnapshot := env.root1
    let tr : List LoopEvent := [.addRef ourSnapshot.epoch]
    if ourSnapshot.epoch ≠ lastEpochMergePlanned then
      match env.planErr1 with
      | some err =>
        (tr ++ [.planMerge ourSnapshot.epoch, .fireAsyncError ("merging err: " ++ err),
                .decRef ourSnapshot.epoch, .continueOuter], lastEpochMergePlanned, true)
      | none =>
        mergerIterationRest env (tr ++ [.planMerge ourSnapshot.epoch, .fireMergerProgress])
          ourSnapshot.epoch
    else
      mergerIterationRest env tr lastEpochMergePlanned

/-- `Scorch.mergerLoop` observed for as many passes as the environment supplies
steps: the events in program order. -/
def mergerLoop : Nat → List LoopStep → List LoopEvent
  | _, [] => []
  | lastEpochMergePlanned, env :: rest =>
    match mergerIteration lastEpochMergePlanned env with
    | (tr, last, true) => tr ++ mergerLoop last rest
    | (tr, _, false) => tr ++ [.asyncTasksDone]

/-! ### Reference counting along a trace of the merger loop -/

/-- The points of the merger loop at which it continues, breaks or blocks on a
channel: an event is recorded when control reaches the point. -/
def LoopEvent.isCheckpoint : LoopEvent → Bool
  | .offerNotify => true
  | .awaitNotify => true
  | .continueOuter => true
  | .breakOuter => true
  | .endOfBody => true
  | _ => false

/-- An `AddRef` on a snapshot whose epoch is selected by `sel`. -/
def LoopEvent.isAcquire (sel : Nat → Bool) : LoopEvent → Bool
  | .addRef epoch => sel epoch
  | _ => false

/-- A `DecRef` on a snapshot whose epoch is selected by `sel`. -/
def LoopEvent.isRelease (sel : Nat → Bool) : LoopEvent → Bool
  | .decRef epoch => sel epoch
  | _ => false

/-- Number of `AddRef` calls in a trace on the snapshots selected by `sel`. -/
def acquisitionsOf (sel : Nat → Bool) (tr : List LoopEvent) : Nat :=
  tr.countP (LoopEvent.isAcquire sel)

/-- Number of `DecRef` calls in a trace on the snapshots selected by `sel`. -/
def releasesOf (sel : Nat → Bool) (tr : List LoopEvent) : Nat :=
  tr.countP (LoopEvent.isRelease sel)

/-- Number of `AddRef` calls in a trace. -/
def acquisitions (tr : List LoopEvent) : Nat := acquisitionsOf (fun _ => true) tr

/-- Number of `DecRef` calls in a trace. -/
def releases (tr : List LoopEvent) : Nat := releasesOf (fun _ => true) tr

/-- A trace run from `a` acquisitions and `r` releases keeps
`r ≤ a ≤ r + 1` at every point and has `r = a` at every checkpoint. -/
def Paired (sel : Nat → Bool) : Nat → Nat → List LoopEvent → Prop
  | a, r, [] => r ≤ a ∧ a ≤ r + 1
  | a, r, ev :: tr =>
    r ≤ a ∧ a ≤ r + 1 ∧ (ev.isCheckpoint = true → r = a) ∧
      Paired sel (a + if ev.isAcquire sel then 1 else 0)
        (r + if ev.isRelease sel then 1 else 0) tr

/-! ### Sample values -/

/-- A term dictionary of the field `"f"` with the terms `"a"` (documents 0 and 2)
and `"b"` (document 1); the excluded documents are left out of a postings list. -/
def sampleDictionary : TermDictionary where
  PostingsList := fun term except =>
    let keep : Nat → Bool := fun n =>
      match except with
      | some e => decide (n ∉ e)
      | none => true
    if term = [97] then .ok { numbers := [0, 2].filter keep, err := none }
    else if term = [98] then .ok { numbers := [1].filter keep, err := none }
    else .ok { numbers := [], err := none }
  Iterator := { terms := [[97], [98]], err := none }

/-- A persisted segment of three documents `"x"`, `"y"`, `"z"` with one field `"f"`. -/
def sampleSegment : Segment where
  isZap := true
  Count := 3
  Fields := ["f"]
  Dictionary := fun field =>
    if field = "f" then .ok sampleDictionary else .error "no such field"
  DocNumbers := fun docIDs =>
    .ok ((docIDs.filterMap fun docID => ["x", "y", "z"].indexOf? docID).toFinset)

/-- A segment whose lookups fail. -/
def closedSegment : Segment where
  isZap := true
  Count := 3
  Fields := []
  Dictionary := fun _ => .error "segment closed"
  DocNumbers := fun _ => .error "segment closed"

/-- The sample segment with document 1 deleted. -/
def sampleSnapshot : SegmentSnapshot :=
  { id := 7, segment := sampleSegment, deleted := some {1} }

/-- The sample segment in a snapshot without a deleted bitmap. -/
def sampleSnapshotNoDeletes : SegmentSnapshot :=
  { id := 8, segment := sampleSegment, deleted := none }

/-- A snapshot of the segment whose lookups fail. -/
def closedSnapshot : SegmentSnapshot :=
  { id := 9, segment := closedSegment, deleted := some {1} }

/-- An in-memory segment of two documents. -/
def memorySegment : Segment where
  isZap := false
  Count := 2
  Fields := ["f"]
  Dictionary := fun _ => .error "no such field"
  DocNumbers := fun _ => .ok ∅

/-- A snapshot of the in-memory segment. -/
def memorySnapshot : SegmentSnapshot :=
  { id := 1, segment := memorySegment, deleted := none }

/-- A snapshot of the persisted sample segment. -/
def persistedSnapshot : SegmentSnapshot :=
  { id := 2, segment := sampleSegment, deleted := none }

/-- A merge task naming an in-memory segment snapshot (id 1) and then a
persisted one (id 2). -/
def mixedTask : MergeTask :=
  { Segments := [.snapshot memorySnapshot, .snapshot persistedSnapshot] }

/-- Collaborators whose calls all succeed: the writer's merge returns, for each
input in order, the identity translation of that input's documents. -/
def sampleCollaborators : Collaborators where
  NumCPU := 4
  zapFileName := fun id => String.mk (List.replicate id 'z') ++ ".zap"
  Merge := fun segments _ _ _ => (segments.map fun seg => List.range seg.Count, none)
  Open := fun _ => (some sampleSegment, none)

/-- The state of an index that has handed out no segment id yet, with a response
channel of capacity one. -/
def initialMergerState : MergerState :=
  { nextSegmentID := 0, marked := [], unmarked := [], responseCh := [], responseCap := 1,
    merges := [], notifications := [] }

/-- The inputs a merge worker hands to the writer's merge for `task`. -/
def mergeInputsOf (task : MergeTask) : MergeInputs :=
  collectSegments task.Segments
    { oldMap := fun _ => none, segmentsToMerge := [], docsToDrop := [] }

/-- A pass of the merger loop in which nothing is planned at the first read
(the root still has epoch 0), the persister takes the notification, the root has
epoch 1 at the second read and planning at it fails. -/
def secondPlanFails : LoopStep where
  closedAtTop := false
  root1 := { segment := [], epoch := 0 }
  planErr1 := none
  closedAtOffer := false
  root2 := { segment := [], epoch := 1 }
  planErr2 := some "merge planning err: planner failed"
  closedAtAwait := false

/-- The same pass with the root already at epoch 1 at the first read, where
planning fails. -/
def firstPlanFails : LoopStep where
  closedAtTop := false
  root1 := { segment := [], epoch := 1 }
  planErr1 := some "merge planning err: planner failed"
  closedAtOffer := false
  root2 := { segment := [], epoch := 1 }
  planErr2 := none
  closedAtAwait := false

/-- The entry the documentation of `cachedFieldDocs.docs` describes for local
doc number `k`: every term of the dictionary, in iteration order, whose postings
list contains `k`, each followed by the separator byte. -/
def termsOfDoc (dict : TermDictionary) (k : Nat) : List Nat :=
  (dict.Iterator.terms.filter fun term =>
    match dict.PostingsList term none with
    | .ok postings => decide (k ∈ postings.numbers)
    | .error _ => false).flatMap fun term => term ++ [ByteSeparator]

/-- A second snapshot of the persisted sample segment. -/
def secondPersistedSnapshot : SegmentSnapshot :=
  { id := 3, segment := sampleSegment, deleted := none }

/-- A merge task naming two persisted segment snapshots (ids 2 and 3). -/
def persistedTask : MergeTask :=
  { Segments := [.snapshot persistedSnapshot, .snapshot secondPersistedSnapshot] }

/-- A merge plan with the single task `persistedTask`. -/
def singleTaskPlan : MergePlan :=
  { Tasks := [persistedTask] }

/-- Collaborators whose merge succeeds while opening the merged file fails. -/
def openFails : Collaborators where
  NumCPU := 4
  zapFileName := sampleCollaborators.zapFileName
  Merge := sampleCollaborators.Merge
  Open := fun _ => (none, some "open failed")

/-- Collaborators whose merge fails; no file is written, so opening it fails too. -/
def mergeFails : Collaborators where
  NumCPU := 4
  zapFileName := sampleCollaborators.zapFileName
  Merge := fun _ _ _ _ => ([], some "disk full")
  Open := fun _ => (none, some "no such file")

/-- The initial state with a response channel of capacity two. -/
def roomyMergerState : MergerState :=
  { initialMergerState with responseCap := 2 }

/-- A segment that reports three documents more than a 32-bit bitmap can hold. -/
def oversizedSegment : Segment where
  isZap := true
  Count := 2 ^ 32 + 3
  Fields := []
  Dictionary := fun _ => .error "no such field"
  DocNumbers := fun _ => .ok ∅

/-- A snapshot of the oversized segment without a deleted bitmap. -/
def oversizedSnapshot : SegmentSnapshot :=
  { id := 4, segment := oversizedSegment, deleted := none }

/-- A root snapshot holding the in-memory segment and the two persisted ones. -/
def sampleRoot : IndexSnapshot :=
  { segment := [memorySnapshot, persistedSnapshot, secondPersistedSnapshot], epoch := 1 }

/-- A planner that fails when its candidates have the ids 2 and 3, in that
order, and has nothing to do otherwise. -/
def idCheckingPlan (candidates : List PlanSegment) : Except Err (Option MergePlan) :=
  if candidates.map PlanSegment.Id = [2, 3] then .error "candidates 2 and 3" else .ok none

/-! ### Theorems: segment snapshots -/

/-- C1: when the underlying segment's `DocNumbers` lookup succeeds with `rv`,
`SegmentSnapshot.DocNumbers` returns exactly the members of `rv` that are not in
the deleted bitmap (`rv` itself when there is no deleted bitmap); when the
lookup fails, it returns that error and no bitmap. -/
theorem docNumbers_masks_deleted (s : SegmentSnapshot) (docIDs : List String) :
    (∀ rv, s.segment.DocNumbers docIDs = .ok rv →
      ∃ out, s.DocNumbers docIDs = .ok out ∧
        (∀ n, n ∈ out ↔ n ∈ rv ∧ ∀ d, s.deleted = some d → n ∉ d) ∧
        (∀ d, s.deleted = some d → out = rv \ d) ∧
        (s.deleted = none → out = rv)) ∧
    (∀ err, s.segment.DocNumbers docIDs = .error err →
      s.DocNumbers docIDs = .error err) := by
  refine ⟨fun rv h => ⟨andNotDeleted rv s.deleted, ?_, ?_, ?_, ?_⟩, fun err h => ?_⟩
  · simp [SegmentSnapshot.DocNumbers, h]
  · intro n
    cases hd : s.deleted <;> simp [andNotDeleted]
  · intro d hd
    simp [andNotDeleted, hd]
  · intro hd
    simp [andNotDeleted, hd]
  · simp [SegmentSnapshot.DocNumbers, h]

/-- Witness of C1: a successful lookup of `"x"` and `"y"` with document 1
deleted, and a failing lookup. -/
theorem docNumbers_masks_deleted_witness :
    (∃ out, sampleSnapshot.DocNumbers ["x", "y"] = .ok out ∧
        (∀ n, n ∈ out ↔ n ∈ ({0, 1} : Bitmap) ∧ ∀ d, sampleSnapshot.deleted = some d → n ∉ d) ∧
        (∀ d, sampleSnapshot.deleted = some d → out = ({0, 1} : Bitmap) \ d) ∧
        (sampleSnapshot.deleted = none → out = ({0, 1} : Bitmap))) ∧
    closedSnapshot.DocNumbers ["x"] = .error "segment closed" :=
  ⟨(docNumbers_masks_deleted sampleSnapshot ["x", "y"]).1 {0, 1}
      (congrArg Except.ok (by decide)),
   (docNumbers_masks_deleted closedSnapshot ["x"]).2 "segment closed" rfl⟩

/-- C2: `SegmentSnapshot.Count` is the segment's count when there is no deleted
bitmap; otherwise it is the segment's count minus the cardinality of the deleted
bitmap modulo `2 ^ 64`, which is the plain difference when the cardinality does
not exceed the count. -/
theorem count_eq_count_minus_deleted (s : SegmentSnapshot)
    (hc : s.segment.Count < 2 ^ 64) :
    (s.deleted = none → s.Count = s.segment.Count) ∧
    (∀ d, s.deleted = some d →
      ((s.Count : Nat) : Int) = ((s.segment.Count : Int) - (d.card : Int)) % 2 ^ 64 ∧
      (d.card ≤ s.segment.Count → s.Count = s.segment.Count - d.card)) := by
  refine ⟨fun hd => by simp [SegmentSnapshot.Count, hd], fun d hd => ?_⟩
  have h64 : (2 : Nat) ^ 64 = 18446744073709551616 := by norm_num
  have h64i : (2 : Int) ^ 64 = 18446744073709551616 := by norm_num
  simp only [SegmentSnapshot.Count, hd, subUint64, uint64Size, h64, h64i] at hc ⊢
  constructor
  · omega
  · intro hle
    omega

/-- Witness of C2: three documents, one of them deleted. -/
theorem count_eq_count_minus_deleted_witness :
    (sampleSnapshot.deleted = none → sampleSnapshot.Count = sampleSnapshot.segment.Count) ∧
    (∀ d, sampleSnapshot.deleted = some d →
      ((sampleSnapshot.Count : Nat) : Int)
        = ((sampleSnapshot.segment.Count : Int) - (d.card : Int)) % 2 ^ 64 ∧
      (d.card ≤ sampleSnapshot.segment.Count →
        sampleSnapshot.Count = sampleSnapshot.segment.Count - d.card)) :=
  count_eq_count_minus_deleted sampleSnapshot (by decide)

/-- C3: the dictionary view returned by `SegmentSnapshot.Dictionary(field)`
answers `PostingsList(term, except)` with the underlying dictionary's postings
list for `term` excluding the snapshot's deleted bitmap, whatever `except` is. -/
theorem dictionary_postings_use_deleted (s : SegmentSnapshot) (field : String)
    (d : TermDictionary) (h : s.segment.Dictionary field = .ok d) :
    ∃ view, s.Dictionary field = .ok view ∧
      ∀ term,
        (∀ except, view.PostingsList term except = d.PostingsList term s.deleted) ∧
        (∀ except1 except2,
          view.PostingsList term except1 = view.PostingsList term except2) := by
  refine ⟨{ s := s, d := d }, ?_, fun term => ⟨fun _ => rfl, fun _ _ => rfl⟩⟩
  simp [SegmentSnapshot.Dictionary, h]

/-- Witness of C3: the field `"f"` of the sample snapshot. -/
theorem dictionary_postings_use_deleted_witness :
    ∃ view, sampleSnapshot.Dictionary "f" = .ok view ∧
      ∀ term,
        (∀ except, view.PostingsList term except
          = sampleDictionary.PostingsList term sampleSnapshot.deleted) ∧
        (∀ except1 except2,
          view.PostingsList term except1 = view.PostingsList term except2) :=
  dictionary_postings_use_deleted sampleSnapshot "f" sampleDictionary (by rfl)

/-- With a count within the 32-bit range, `AddRange(0, count)` on an empty
bitmap gives the numbers below the count. -/
theorem addRangeFromZero_of_le (count : Nat) (hc : count ≤ 2 ^ 32) :
    addRangeFromZero ∅ count = Finset.range count := by
  have h32 : (2 : Nat) ^ 32 = 4294967296 := by norm_num
  unfold addRangeFromZero
  split_ifs with h0
  · simp [h0]
  · have hmod : (count - 1) % uint32Size + 1 = count := by
      simp only [uint32Size, h32] at hc ⊢
      omega
    rw [hmod, Finset.empty_union]

/-- C4 (amended): for a segment snapshot whose segment count is at most 2^32,
`DocNumbersLive` holds exactly the doc numbers below the segment's count that
are not in the deleted bitmap; when moreover every deleted doc number is below
the count, its cardinality is `Count()`. -/
theorem docNumbersLive_spec (s : SegmentSnapshot) (hc : s.segment.Count ≤ 2 ^ 32) :
    (∀ n, n ∈ s.DocNumbersLive ↔
      n < s.segment.Count ∧ ∀ d, s.deleted = some d → n ∉ d) ∧
    ((∀ d, s.deleted = some d → ∀ n ∈ d, n < s.segment.Count) →
      s.DocNumbersLive.card = s.Count) := by
  have hrange := addRangeFromZero_of_le s.segment.Count hc
  constructor
  · intro n
    cases hd : s.deleted <;>
      simp [SegmentSnapshot.DocNumbersLive, andNotDeleted, hd, hrange]
  · intro hbelow
    cases hd : s.deleted with
    | none =>
      simp [SegmentSnapshot.DocNumbersLive, SegmentSnapshot.Count, andNotDeleted, hd, hrange]
    | some d =>
      have hsub : d ⊆ Finset.range s.segment.Count := by
        intro n hn
        exact Finset.mem_range.mpr (hbelow d hd n hn)
      have hcard : d.card ≤ s.segment.Count := by
        simpa using Finset.card_le_card hsub
      have hlive : (Finset.range s.segment.Count \ d).card = s.segment.Count - d.card := by
        rw [Finset.card_sdiff hsub, Finset.card_range]
      have h64 : (2 : Nat) ^ 64 = 18446744073709551616 := by norm_num
      have h32 : (2 : Nat) ^ 32 = 4294967296 := by norm_num
      simp only [SegmentSnapshot.DocNumbersLive, SegmentSnapshot.Count, andNotDeleted, hd,
        hrange, hlive, subUint64, uint64Size, h64, h32] at hc ⊢
      omega

/-- Witness of C4: three documents, one of them deleted. -/
theorem docNumbersLive_spec_witness :
    sampleSnapshot.DocNumbersLive.card = sampleSnapshot.Count :=
  (docNumbersLive_spec sampleSnapshot (by decide)).2
    (fun d hd n hn => by
      have hd1 : d = {1} := by
        have := hd.symm
        simp only [sampleSnapshot, Option.some.injEq] at this
        exact this
      subst hd1
      have hn1 : n = 1 := by simpa using hn
      subst hn1
      decide)

/-- C4 (counterexample to the claim as stated): for a segment that reports
2^32 + 3 documents, none of them deleted, `DocNumbersLive` is `{0, 1, 2}`: doc
number 3 is below the count and not deleted, yet it is not in the result, and
the cardinality 3 differs from `Count()`. -/
theorem docNumbersLive_wraps_beyond_32_bits :
    ¬ (∀ n, n ∈ oversizedSnapshot.DocNumbersLive ↔
        n < oversizedSnapshot.segment.Count ∧
          ∀ d, oversizedSnapshot.deleted = some d → n ∉ d) ∧
    (∀ d, oversizedSnapshot.deleted = some d →
        ∀ n ∈ d, n < oversizedSnapshot.segment.Count) ∧
    oversizedSnapshot.DocNumbersLive = {0, 1, 2} ∧
    oversizedSnapshot.Count = 2 ^ 32 + 3 ∧
    oversizedSnapshot.DocNumbersLive.card ≠ oversizedSnapshot.Count := by
  have hlive : oversizedSnapshot.DocNumbersLive = {0, 1, 2} := by decide
  have hcount : oversizedSnapshot.Count = 2 ^ 32 + 3 := by decide
  refine ⟨?_, ?_, hlive, hcount, ?_⟩
  · intro h
    have h3 : (3 : Nat) ∈ oversizedSnapshot.DocNumbersLive :=
      (h 3).mpr ⟨by decide, fun d hd => by simp [oversizedSnapshot] at hd⟩
    rw [hlive] at h3
    revert h3
    decide
  · intro d hd
    simp [oversizedSnapshot] at hd
  · rw [hlive, hcount]
    decide

/-! ### Theorems: the merger -/

/-- The candidate loop appends to its accumulator the persisted snapshots, in order. -/
theorem onlyZapSnapshots_acc (segments acc : List SegmentSnapshot) :
    onlyZapSnapshots segments acc = acc ++ segments.filter (fun ss => ss.segment.isZap) := by
  induction segments generalizing acc with
  | nil => simp [onlyZapSnapshots]
  | cons ss rest ih =>
    by_cases hz : ss.segment.isZap = true
    · simp [onlyZapSnapshots, hz, ih]
    · simp [onlyZapSnapshots, hz, ih]

/-- C6: the candidates `planMergeAtSnapshot` builds are the snapshot's segment
snapshots with a persisted (zap) segment, in snapshot order: a sublist holding
every persisted and no in-memory segment. That list is what the planner is
called on, and the planner's answer to it decides the outcome: its error is
returned wrapped, its empty plan ends the call with no error, and its plan is
the one handed to `mergeTasks`. -/
theorem planMerge_candidates_are_persisted (ourSnapshot : IndexSnapshot) :
    onlyZapSnapshots ourSnapshot.segment []
      = ourSnapshot.segment.filter (fun ss => ss.segment.isZap) ∧
    List.Sublist (onlyZapSnapshots ourSnapshot.segment []) ourSnapshot.segment ∧
    (∀ ss, ss ∈ onlyZapSnapshots ourSnapshot.segment [] ↔
      ss ∈ ourSnapshot.segment ∧ ss.segment.isZap = true) ∧
    (∀ Plan quote c path closing closedAtAck st,
      (∀ err,
        Plan ((ourSnapshot.segment.filter (fun ss => ss.segment.isZap)).map
          PlanSegment.snapshot) = .error err →
        planMergeAtSnapshot Plan quote c path closing closedAtAck st ourSnapshot
          = some (some ("merge planning err: " ++ err), st)) ∧
      (Plan ((ourSnapshot.segment.filter (fun ss => ss.segment.isZap)).map
          PlanSegment.snapshot) = .ok none →
        planMergeAtSnapshot Plan quote c path closing closedAtAck st ourSnapshot
          = some (none, st)) ∧
      (∀ plan,
        Plan ((ourSnapshot.segment.filter (fun ss => ss.segment.isZap)).map
          PlanSegment.snapshot) = .ok (some plan) →
        planMergeAtSnapshot Plan quote c path closing closedAtAck st ourSnapshot
          = (mergeTasks c path closing closedAtAck st plan).map fun r =>
              (if r.1.length > 0 then some (mergeTasksErrorText quote r.1) else none, r.2))) := by
  have h := onlyZapSnapshots_acc ourSnapshot.segment []
  simp only [List.nil_append] at h
  refine ⟨h, ?_, ?_, ?_⟩
  · rw [h]
    exact List.filter_sublist _
  · intro ss
    rw [h]
    simp [List.mem_filter]
  · intro Plan quote c path closing closedAtAck st
    refine ⟨fun err hp => ?_, fun hp => ?_, fun plan hp => ?_⟩
    · simp only [planMergeAtSnapshot, h, hp]
    · simp only [planMergeAtSnapshot, h, hp]
    · simp only [planMergeAtSnapshot, h, hp]
      cases hm : mergeTasks c path closing closedAtAck st plan with
      | none => rfl
      | some r =>
        obtain ⟨errs, st1⟩ := r
        by_cases hl : errs.length > 0 <;> simp [hl]

/-- Witness of C6: on a root with an in-memory segment (id 1) and two persisted
ones (ids 2 and 3), a planner that fails exactly on the candidates 2, 3 makes
`planMergeAtSnapshot` return that failure. -/
theorem planMerge_candidates_are_persisted_witness :
    planMergeAtSnapshot idCheckingPlan (fun t => t) sampleCollaborators "idx" [] false
        initialMergerState sampleRoot
      = some (some ("merge planning err: " ++ "candidates 2 and 3"), initialMergerState) :=
  ((planMerge_candidates_are_persisted sampleRoot).2.2.2 idCheckingPlan (fun t => t)
    sampleCollaborators "idx" [] false initialMergerState).1 "candidates 2 and 3" (by rfl)

/-- C9: `getWorkerCount(n)` is the minimum of the task count `n` and the CPU
count `p`, so it exceeds neither. -/
theorem getWorkerCount_eq_min (p n : Int) :
    getWorkerCount p n = min n p ∧ getWorkerCount p n ≤ n ∧ getWorkerCount p n ≤ p := by
  unfold getWorkerCount
  split_ifs with h
  · refine ⟨?_, le_refl _, le_of_lt h⟩
    rw [min_eq_left (le_of_lt h)]
  · have hp : p ≤ n := not_lt.mp h
    refine ⟨?_, hp, le_refl _⟩
    rw [min_eq_right hp]

/-- On snapshots of persisted segments the first loop of a merge worker keeps
every snapshot, in order. -/
theorem collectSegments_of_zap (snaps : List SegmentSnapshot) (acc : MergeInputs)
    (hzap : ∀ ss ∈ snaps, ss.segment.isZap = true) :
    collectSegments (snaps.map PlanSegment.snapshot) acc =
      { oldMap := snaps.foldl (fun m ss => mapSet m ss.id ss) acc.oldMap,
        segmentsToMerge := acc.segmentsToMerge ++ snaps,
        docsToDrop := acc.docsToDrop ++ snaps.map (fun ss => ss.deleted) } := by
  induction snaps generalizing acc with
  | nil => simp [collectSegments]
  | cons a rest ih =>
    have ha : a.segment.isZap = true := hzap a (List.mem_cons_self _ _)
    have hrest : ∀ ss ∈ rest, ss.segment.isZap = true :=
      fun ss h => hzap ss (List.mem_cons_of_mem _ h)
    simp [collectSegments, ha, ih _ hrest]

/-- The `old` map built from snapshots with distinct ids holds each snapshot
under its id, and keeps the entries of the other ids. -/
theorem oldMap_of_distinct_ids (snaps : List SegmentSnapshot)
    (m : Nat → Option SegmentSnapshot)
    (hids : (snaps.map (fun ss => ss.id)).Nodup) (id : Nat) (ss : SegmentSnapshot) :
    (snaps.foldl (fun m ss => mapSet m ss.id ss) m) id = some ss ↔
      (ss ∈ snaps ∧ ss.id = id) ∨ ((∀ t ∈ snaps, t.id ≠ id) ∧ m id = some ss) := by
  induction snaps generalizing m with
  | nil => simp
  | cons a rest ih =>
    rw [List.map_cons, List.nodup_cons] at hids
    obtain ⟨hnot, hrest⟩ := hids
    have hno : ∀ t ∈ rest, t.id ≠ a.id := by
      intro t ht heq
      exact hnot (List.mem_map.mpr ⟨t, ht, heq⟩)
    rw [List.foldl_cons, ih _ hrest]
    by_cases h : id = a.id
    · subst h
      constructor
      · rintro (⟨hmem, hid⟩ | ⟨_, hval⟩)
        · exact absurd hid (hno ss hmem)
        · have hss : a = ss := by simpa [mapSet] using hval
          subst hss
          exact Or.inl ⟨List.mem_cons_self _ _, rfl⟩
      · rintro (⟨hmem, hid⟩ | ⟨hall, _⟩)
        · rcases List.mem_cons.mp hmem with hhead | htail
          · subst hhead
            exact Or.inr ⟨hno, by simp [mapSet]⟩
          · exact absurd hid (hno ss htail)
        · exact absurd rfl (hall a (List.mem_cons_self _ _))
    · have hmap : mapSet m a.id a id = m id := by simp [mapSet, h]
      rw [hmap]
      constructor
      · rintro (⟨hmem, hid⟩ | ⟨hall, hval⟩)
        · exact Or.inl ⟨List.mem_cons_of_mem _ hmem, hid⟩
        · refine Or.inr ⟨?_, hval⟩
          intro t ht
          rcases List.mem_cons.mp ht with hhead | htail
          · subst hhead
            exact fun heq => h heq.symm
          · exact hall t htail
      · rintro (⟨hmem, hid⟩ | ⟨hall, hval⟩)
        · rcases List.mem_cons.mp hmem with hhead | htail
          · subst hhead
            exact absurd hid.symm h
          · exact Or.inl ⟨htail, hid⟩
        · exact Or.inr ⟨fun t ht => hall t (List.mem_cons_of_mem _ ht), hval⟩

/-- The loop that files the translation vectors, run from the index where the
snapshots `suf` start: with no more vectors than snapshots and distinct ids it
files the vector at each position under the id of the snapshot at that position
and leaves the other ids as they were. -/
theorem recordDocNums_of_snapshots (vs : List (List Nat)) :
    ∀ (pre suf : List SegmentSnapshot) (m : Nat → Option (List Nat)),
      vs.length ≤ suf.length → (suf.map (fun ss => ss.id)).Nodup →
      ∃ m1, recordDocNums ((pre ++ suf).map PlanSegment.snapshot) pre.length vs m = some m1 ∧
        (∀ (i : Nat) (ss : SegmentSnapshot) (v : List Nat),
          suf[i]? = some ss → vs[i]? = some v → m1 ss.id = some v) ∧
        (∀ id, (∀ t ∈ suf, t.id ≠ id) → m1 id = m id) := by
  induction vs with
  | nil =>
    intro pre suf m _ _
    exact ⟨m, by simp [recordDocNums], by simp, fun _ _ => rfl⟩
  | cons v rest ih =>
    intro pre suf m hlen hids
    cases suf with
    | nil => simp at hlen
    | cons a suf1 =>
      rw [List.map_cons, List.nodup_cons] at hids
      obtain ⟨hnot, hids1⟩ := hids
      have hno : ∀ t ∈ suf1, t.id ≠ a.id := by
        intro t ht heq
        exact hnot (List.mem_map.mpr ⟨t, ht, heq⟩)
      have hlen1 : rest.length ≤ suf1.length := by simpa using hlen
      obtain ⟨m1, hrun, hget, hkeep⟩ := ih (pre ++ [a]) suf1 (mapSet m a.id v) hlen1 hids1
      refine ⟨m1, ?_, ?_, ?_⟩
      · have hidx : ((pre ++ a :: suf1).map PlanSegment.snapshot)[pre.length]?
            = some (PlanSegment.snapshot a) := by
          rw [List.map_append, List.getElem?_append_right (by simp)]
          simp
        simp only [recordDocNums, hidx]
        simpa [PlanSegment.Id] using hrun
      · intro i ss w hi hw
        cases i with
        | zero =>
          simp only [List.getElem?_cons_zero, Option.some.injEq] at hi hw
          subst hi
          subst hw
          rw [hkeep _ hno]
          simp [mapSet]
        | succ j =>
          exact hget j ss w (by simpa using hi) (by simpa using hw)
      · intro id hne
        rw [hkeep id (fun t ht => hne t (List.mem_cons_of_mem _ ht))]
        have hid : id ≠ a.id := fun h => hne a (List.mem_cons_self _ _) h.symm
        simp [mapSet, hid]

/-- A task that also names an in-memory segment, which is never among the
planner's candidates: only the persisted segment (id 2) is passed to the
writer's merge, and the one vector it returns is filed under the id of the
task's first entry (id 1). -/
theorem mergeOneTask_on_mixed_task :
    (mergeInputsOf mixedTask).segmentsToMerge.map (fun ss => ss.id) = [2] ∧
    (sampleCollaborators.Merge ((mergeInputsOf mixedTask).segmentsToMerge.map (·.segment))
        (mergeInputsOf mixedTask).docsToDrop "idx/z.zap" 1024) = ([[0, 1, 2]], none) ∧
    (mergeOneTask sampleCollaborators "idx" false initialMergerState mixedTask).map
        (fun r => (r.1.responseCh, r.1.merges.length, r.2.2)) = some ([], 1, false) ∧
    (mergeOneTask sampleCollaborators "idx" false initialMergerState mixedTask).map
        (fun r => (r.2.1.oldNewDocNums 1, r.2.1.oldNewDocNums 2))
      = some (some [0, 1, 2], none) ∧
    (mergeOneTask sampleCollaborators "idx" false initialMergerState mixedTask).map
        (fun r => ((r.2.1.old 1).map (fun ss => ss.id), (r.2.1.old 2).map (fun ss => ss.id)))
      = some (some 1, some 2) := by
  refine ⟨by decide, by decide, by decide, by decide, by decide⟩

/-- C5: for a merge task that names snapshots `snaps` taken from the candidates
handed to the planner, with pairwise distinct ids, for which the writer's merge
returns one vector per input and no error and the open returns no error, and
with the index not closing: the segments passed to the merge are those of
`snaps` with their deleted bitmaps, in order; the worker reports no error and
submits one merge record; that record holds the vector at each position under
the id of the snapshot at that position and nothing under any other id; and
its `old` map holds exactly the task's snapshots, each under its id. -/
theorem mergeOneTask_files_translations (c : Collaborators) (path : String)
    (st : MergerState) (ourSnapshot : IndexSnapshot) (task : MergeTask)
    (snaps : List SegmentSnapshot) (newDocNums : List (List Nat)) (segment : Option Segment)
    (hsegs : task.Segments = snaps.map PlanSegment.snapshot)
    (hcand : ∀ ss ∈ snaps, ss ∈ onlyZapSnapshots ourSnapshot.segment [])
    (hids : (snaps.map (fun ss => ss.id)).Nodup)
    (hmerge : c.Merge (snaps.map (fun ss => ss.segment)) (snaps.map (fun ss => ss.deleted))
        (path ++ "/" ++ c.zapFileName ((st.nextSegmentID + 1) % uint64Size)) 1024
      = (newDocNums, none))
    (hopen : c.Open (path ++ "/" ++ c.zapFileName ((st.nextSegmentID + 1) % uint64Size))
      = (segment, none))
    (hlen : newDocNums.length = snaps.length) :
    (mergeInputsOf task).segmentsToMerge = snaps ∧
    (mergeInputsOf task).docsToDrop = snaps.map (fun ss => ss.deleted) ∧
    ∃ st1 sm, mergeOneTask c path false st task = some (st1, sm, false) ∧
      st1.merges = st.merges ++ [sm] ∧
      st1.responseCh = st.responseCh ∧
      (∀ (i : Nat) (ss : SegmentSnapshot) (v : List Nat),
        snaps[i]? = some ss → newDocNums[i]? = some v →
        sm.oldNewDocNums ss.id = some v) ∧
      (∀ id, (∀ ss ∈ snaps, ss.id ≠ id) → sm.oldNewDocNums id = none) ∧
      (∀ id ss, sm.old id = some ss ↔ ss ∈ snaps ∧ ss.id = id) := by
  have hzap : ∀ ss ∈ snaps, ss.segment.isZap = true := by
    intro ss hss
    have hmem := hcand ss hss
    rw [onlyZapSnapshots_acc] at hmem
    simp only [List.nil_append, List.mem_filter] at hmem
    exact hmem.2
  have hcollect := collectSegments_of_zap snaps
    { oldMap := fun _ => none, segmentsToMerge := [], docsToDrop := [] } hzap
  simp only [List.nil_append] at hcollect
  obtain ⟨m1, hrun, hget, hkeep⟩ :=
    recordDocNums_of_snapshots newDocNums [] snaps (fun _ => none) (le_of_eq hlen) hids
  simp only [List.nil_append, List.length_nil] at hrun
  refine ⟨by simp [mergeInputsOf, hsegs, hcollect], by simp [mergeInputsOf, hsegs, hcollect], ?_⟩
  simp only [mergeOneTask, hsegs, hcollect, hmerge, hopen, hrun]
  refine ⟨_, _, rfl, rfl, rfl, hget, ?_, ?_⟩
  · intro id hne
    exact hkeep id hne
  · intro id ss
    rw [oldMap_of_distinct_ids snaps _ hids id ss]
    simp

/-- Witness of C5: the task naming the two persisted snapshots (ids 2 and 3) of
the sample root, with the writer returning the identity translation for each. -/
theorem mergeOneTask_files_translations_witness :
    (mergeInputsOf persistedTask).segmentsToMerge
      = [persistedSnapshot, secondPersistedSnapshot] ∧
    (mergeInputsOf persistedTask).docsToDrop
      = [persistedSnapshot, secondPersistedSnapshot].map (fun ss => ss.deleted) ∧
    ∃ st1 sm,
      mergeOneTask sampleCollaborators "idx" false initialMergerState persistedTask
        = some (st1, sm, false) ∧
      st1.merges = initialMergerState.merges ++ [sm] ∧
      st1.responseCh = initialMergerState.responseCh ∧
      (∀ (i : Nat) (ss : SegmentSnapshot) (v : List Nat),
        [persistedSnapshot, secondPersistedSnapshot][i]? = some ss →
        [[0, 1, 2], [0, 1, 2]][i]? = some v → sm.oldNewDocNums ss.id = some v) ∧
      (∀ id, (∀ ss ∈ [persistedSnapshot, secondPersistedSnapshot], ss.id ≠ id) →
        sm.oldNewDocNums id = none) ∧
      (∀ id ss, sm.old id = some ss ↔
        ss ∈ [persistedSnapshot, secondPersistedSnapshot] ∧ ss.id = id) :=
  mergeOneTask_files_translations sampleCollaborators "idx" initialMergerState sampleRoot
    persistedTask [persistedSnapshot, secondPersistedSnapshot] [[0, 1, 2], [0, 1, 2]]
    (some sampleSegment) rfl
    (fun ss hss => by
      have hc : onlyZapSnapshots sampleRoot.segment []
          = [persistedSnapshot, secondPersistedSnapshot] := rfl
      rw [hc]
      exact hss)
    (by decide) (by decide) rfl rfl

/-- C8 (the code at a failing input): when planning fails at the second call of
a pass, the pass releases the snapshot and continues with
`lastEpochMergePlanned` unchanged, and fires no asynchronous error; at the first
call the same failure is fired as an asynchronous error. -/
theorem mergerLoop_second_plan_error_silent :
    mergerIteration 0 secondPlanFails
      = ([.addRef 0, .decRef 0, .offerNotify, .addRef 1, .planMerge 1, .decRef 1,
          .continueOuter], 0, true) ∧
    (∀ err, LoopEvent.fireAsyncError err ∉ (mergerIteration 0 secondPlanFails).1) ∧
    mergerIteration 0 firstPlanFails
      = ([.addRef 1, .planMerge 1,
          .fireAsyncError "merging err: merge planning err: planner failed",
          .decRef 1, .continueOuter], 0, true) := by
  refine ⟨by decide, ?_, by decide⟩
  intro err
  have h : mergerIteration 0 secondPlanFails
      = ([.addRef 0, .decRef 0, .offerNotify, .addRef 1, .planMerge 1, .decRef 1,
          .continueOuter], 0, true) := by decide
  rw [h]
  simp

/-- C10 (the code at a failing input): on the sample segment, where the term
`"a"` occurs in documents 0 and 2 and the term `"b"` in document 1,
`prepareFields(1, "f", ss)` completes without error and leaves under key 1 the
terms of document 0, and `prepareFields(0, "f", ss)` writes no key at all. -/
theorem prepareFields_files_previous_doc :
    (cachedFieldDocs.fresh.prepareFields 1 "f" sampleSnapshotNoDeletes).2 = none ∧
    (cachedFieldDocs.fresh.prepareFields 1 "f" sampleSnapshotNoDeletes).1.err = none ∧
    (cachedFieldDocs.fresh.prepareFields 1 "f" sampleSnapshotNoDeletes).1.docs 1
      = some [97, 255] ∧
    termsOfDoc sampleDictionary 1 = [98, 255] ∧
    termsOfDoc sampleDictionary 0 = [97, 255] ∧
    (cachedFieldDocs.fresh.prepareFields 0 "f" sampleSnapshotNoDeletes).1.docs 0 = none := by
  refine ⟨by decide, by decide, by decide, by decide, by decide, by decide⟩

/-! ### Theorems: reference counting in the merger loop -/

/-- Pairing of a concatenation follows from pairing of its parts. -/
theorem paired_append (sel : Nat → Bool) (x y : List LoopEvent) (a r : Nat)
    (hx : Paired sel a r x)
    (hy : Paired sel (a + acquisitionsOf sel x) (r + releasesOf sel x) y) :
    Paired sel a r (x ++ y) := by
  induction x generalizing a r with
  | nil => simpa [acquisitionsOf, releasesOf] using hy
  | cons ev x ih =>
    obtain ⟨h1, h2, h3, h4⟩ := hx
    have e1 : a + acquisitionsOf sel (ev :: x)
        = (a + if ev.isAcquire sel then 1 else 0) + acquisitionsOf sel x := by
      simp only [acquisitionsOf, List.countP_cons]
      omega
    have e2 : r + releasesOf sel (ev :: x)
        = (r + if ev.isRelease sel then 1 else 0) + releasesOf sel x := by
      simp only [releasesOf, List.countP_cons]
      omega
    rw [e1, e2] at hy
    exact ⟨h1, h2, h3, ih _ _ h4 hy⟩

/-- Along a paired trace the releases never exceed the acquisitions, and at most
one acquisition is outstanding. -/
theorem paired_bounds (sel : Nat → Bool) (tr : List LoopEvent) (a r : Nat)
    (h : Paired sel a r tr) (pre : List LoopEvent) (hpre : pre <+: tr) :
    r + releasesOf sel pre ≤ a + acquisitionsOf sel pre ∧
    a + acquisitionsOf sel pre ≤ r + releasesOf sel pre + 1 := by
  induction tr generalizing a r pre with
  | nil =>
    have hnil : pre = [] := List.prefix_nil.mp hpre
    subst hnil
    simpa [acquisitionsOf, releasesOf, Paired] using h
  | cons ev tr ih =>
    obtain ⟨h1, h2, _, h4⟩ := h
    cases pre with
    | nil => simpa [acquisitionsOf, releasesOf] using And.intro h1 h2
    | cons p ps =>
      obtain ⟨hp, hps⟩ := List.cons_prefix_cons.mp hpre
      subst hp
      have := ih _ _ h4 ps hps
      simp only [acquisitionsOf, releasesOf, List.countP_cons] at this ⊢
      omega

/-- Along a paired trace the releases equal the acquisitions at every checkpoint. -/
theorem paired_checkpoint (sel : Nat → Bool) (tr : List LoopEvent) (a r : Nat)
    (h : Paired sel a r tr) (pre : List LoopEvent) (c : LoopEvent)
    (hpre : pre ++ [c] <+: tr) (hc : c.isCheckpoint = true) :
    r + releasesOf sel pre = a + acquisitionsOf sel pre := by
  induction tr generalizing a r pre with
  | nil =>
    have hnil : pre ++ [c] = [] := List.prefix_nil.mp hpre
    simp at hnil
  | cons ev tr ih =>
    obtain ⟨_, _, h3, h4⟩ := h
    cases pre with
    | nil =>
      obtain ⟨hp, _⟩ := List.cons_prefix_cons.mp hpre
      subst hp
      simpa [acquisitionsOf, releasesOf] using h3 hc
    | cons p ps =>
      obtain ⟨hp, hps⟩ := List.cons_prefix_cons.mp hpre
      subst hp
      have := ih _ _ h4 ps hps
      simp only [acquisitionsOf, releasesOf, List.countP_cons] at this ⊢
      omega

/-- The second part of the loop body extends the events it is given. -/
theorem mergerIterationRest_trace (env : LoopStep) (tr : List LoopEvent) (last : Nat) :
    mergerIterationRest env tr last
      = (tr ++ (mergerIterationRest env [] last).1, (mergerIterationRest env [] last).2) := by
  unfold mergerIterationRest
  by_cases hO : env.closedAtOffer = true <;> by_cases hA : env.closedAtAwait = true <;>
    by_cases hE : env.root2.epoch = last <;> cases hP : env.planErr2 <;>
    simp [hO, hA, hE, hP]

set_option maxHeartbeats 1600000 in
/-- The second part of the loop body, entered with the first snapshot still
held, is paired and ends with nothing held. -/
theorem mergerIterationRest_paired (sel : Nat → Bool) (env : LoopStep) (last n : Nat) :
    Paired sel (n + if sel env.root1.epoch then 1 else 0) n
      (mergerIterationRest env [] last).1 ∧
    acquisitionsOf sel (mergerIterationRest env [] last).1
        + (if sel env.root1.epoch then 1 else 0)
      = releasesOf sel (mergerIterationRest env [] last).1 := by
  unfold mergerIterationRest
  rcases eq_or_ne env.root2.epoch last with hE | hE
  · subst hE
    by_cases hO : env.closedAtOffer = true <;> by_cases hA : env.closedAtAwait = true <;>
      cases h1 : sel env.root1.epoch <;> cases h2 : sel env.root2.epoch <;>
      simp [Paired, acquisitionsOf, releasesOf, LoopEvent.isCheckpoint, LoopEvent.isAcquire,
        LoopEvent.isRelease, hO, hA, h1, h2]
  · by_cases hO : env.closedAtOffer = true <;> by_cases hA : env.closedAtAwait = true <;>
      cases hP : env.planErr2 <;>
      cases h1 : sel env.root1.epoch <;> cases h2 : sel env.root2.epoch <;>
      simp [Paired, acquisitionsOf, releasesOf, LoopEvent.isCheckpoint, LoopEvent.isAcquire,
        LoopEvent.isRelease, hO, hA, hE, hP, h1, h2]

/-- A pass that finds the index closing at the top of the body breaks at once. -/
theorem mergerIteration_closed (last : Nat) (env : LoopStep)
    (hclosed : env.closedAtTop = true) :
    mergerIteration last env = ([.breakOuter], last, false) := by
  simp [mergerIteration, hclosed]

/-- A pass whose first read sees the epoch already planned goes on to the
second part of the body without planning. -/
theorem mergerIteration_same_epoch (last : Nat) (env : LoopStep)
    (hclosed : ¬ env.closedAtTop = true) (hepoch : env.root1.epoch = last) :
    mergerIteration last env
      = mergerIterationRest env [.addRef env.root1.epoch] last := by
  simp [mergerIteration, hclosed, hepoch]

/-- A pass whose first planning fails fires the error, releases the snapshot
and continues without recording the epoch. -/
theorem mergerIteration_first_plan_error (last : Nat) (env : LoopStep) (err : Err)
    (hclosed : ¬ env.closedAtTop = true) (hepoch : env.root1.epoch ≠ last)
    (hplan : env.planErr1 = some err) :
    mergerIteration last env
      = ([.addRef env.root1.epoch, .planMerge env.root1.epoch,
          .fireAsyncError ("merging err: " ++ err), .decRef env.root1.epoch,
          .continueOuter], last, true) := by
  simp [mergerIteration, hclosed, hepoch, hplan]

/-- A pass whose first planning succeeds records the epoch and goes on to the
second part of the body. -/
theorem mergerIteration_first_plan_ok (last : Nat) (env : LoopStep)
    (hclosed : ¬ env.closedAtTop = true) (hepoch : env.root1.epoch ≠ last)
    (hplan : env.planErr1 = none) :
    mergerIteration last env
      = mergerIterationRest env
          [.addRef env.root1.epoch, .planMerge env.root1.epoch, .fireMergerProgress]
          env.root1.epoch := by
  simp [mergerIteration, hclosed, hepoch, hplan]

/-- Events that hold the first snapshot, followed by the second part of the
loop body, form a paired trace that releases what it acquires. -/
theorem paired_before_rest (sel : Nat → Bool) (env : LoopStep) (last n : Nat)
    (tr : List LoopEvent) (htr : Paired sel n n tr)
    (hacq : acquisitionsOf sel tr = if sel env.root1.epoch then 1 else 0)
    (hrel : releasesOf sel tr = 0) :
    Paired sel n n (mergerIterationRest env tr last).1 ∧
    acquisitionsOf sel (mergerIterationRest env tr last).1
      = releasesOf sel (mergerIterationRest env tr last).1 := by
  obtain ⟨hp, hbal⟩ := mergerIterationRest_paired sel env last n
  rw [mergerIterationRest_trace]
  constructor
  · refine paired_append sel _ _ n n htr ?_
    rw [hacq, hrel]
    exact hp
  · simp only [acquisitionsOf, releasesOf, List.countP_append] at hbal hacq hrel ⊢
    omega

/-- One pass through the loop body is paired and releases what it acquires. -/
theorem mergerIteration_paired (sel : Nat → Bool) (last : Nat) (env : LoopStep) (n : Nat) :
    Paired sel n n (mergerIteration last env).1 ∧
    acquisitionsOf sel (mergerIteration last env).1
      = releasesOf sel (mergerIteration last env).1 := by
  by_cases hclosed : env.closedAtTop = true
  · rw [mergerIteration_closed last env hclosed]
    simp [Paired, acquisitionsOf, releasesOf, LoopEvent.isCheckpoint, LoopEvent.isAcquire,
      LoopEvent.isRelease]
  · by_cases hepoch : env.root1.epoch = last
    · rw [mergerIteration_same_epoch last env hclosed hepoch]
      refine paired_before_rest sel env last n _ ?_ ?_ ?_
      · cases h1 : sel env.root1.epoch <;>
          simp [Paired, LoopEvent.isCheckpoint, LoopEvent.isAcquire, LoopEvent.isRelease, h1]
      · cases h1 : sel env.root1.epoch <;> simp [acquisitionsOf, LoopEvent.isAcquire, h1]
      · simp [releasesOf, LoopEvent.isRelease]
    · cases hplan : env.planErr1 with
      | some err =>
        rw [mergerIteration_first_plan_error last env err hclosed hepoch hplan]
        cases h1 : sel env.root1.epoch <;>
          simp [Paired, acquisitionsOf, releasesOf, LoopEvent.isCheckpoint,
            LoopEvent.isAcquire, LoopEvent.isRelease, h1]
      | none =>
        rw [mergerIteration_first_plan_ok last env hclosed hepoch hplan]
        refine paired_before_rest sel env _ n _ ?_ ?_ ?_
        · cases h1 : sel env.root1.epoch <;>
            simp [Paired, LoopEvent.isCheckpoint, LoopEvent.isAcquire, LoopEvent.isRelease, h1]
        · cases h1 : sel env.root1.epoch <;> simp [acquisitionsOf, LoopEvent.isAcquire, h1]
        · simp [releasesOf, LoopEvent.isRelease]

/-- Every observed run of the merger loop is paired. -/
theorem mergerLoop_paired (sel : Nat → Bool) (envs : List LoopStep) (last n : Nat) :
    Paired sel n n (mergerLoop last envs) := by
  induction envs generalizing last n with
  | nil => simp [mergerLoop, Paired]
  | cons env rest ih =>
    obtain ⟨hp, hbal⟩ := mergerIteration_paired sel last env n
    unfold mergerLoop
    rcases hres : mergerIteration last env with ⟨tr, last1, goesOn⟩
    rw [hres] at hp hbal
    cases goesOn with
    | true =>
      refine paired_append sel tr _ n n hp ?_
      rw [hbal]
      exact ih last1 _
    | false =>
      refine paired_append sel tr _ n n hp ?_
      rw [hbal]
      simp [Paired, LoopEvent.isCheckpoint, LoopEvent.isAcquire, LoopEvent.isRelease]

/-- C7: in every observed run of the merger loop, at every point where the loop
continues, breaks or blocks on a channel, the releases (`DecRef`) performed so
far equal the acquisitions (`AddRef`) performed so far, in total and for each
snapshot epoch; and at every point of the run the releases never exceed the
acquisitions and at most one acquisition is outstanding. -/
theorem mergerLoop_refs_balanced (last : Nat) (envs : List LoopStep)
    (pre : List LoopEvent) (hpre : pre <+: mergerLoop last envs) :
    (releases pre ≤ acquisitions pre ∧ acquisitions pre ≤ releases pre + 1) ∧
    ∀ c, pre ++ [c] <+: mergerLoop last envs → c.isCheckpoint = true →
      releases pre = acquisitions pre ∧
      ∀ epoch, releasesOf (fun e => e == epoch) pre = acquisitionsOf (fun e => e == epoch) pre := by
  refine ⟨?_, fun c hc hcp => ⟨?_, fun epoch => ?_⟩⟩
  · have := paired_bounds _ _ 0 0 (mergerLoop_paired (fun _ => true) envs last 0) pre hpre
    simpa [releases, acquisitions] using this
  · have := paired_checkpoint _ _ 0 0 (mergerLoop_paired (fun _ => true) envs last 0) pre c hc hcp
    simpa [releases, acquisitions] using this
  · have := paired_checkpoint _ _ 0 0
      (mergerLoop_paired (fun e => e == epoch) envs last 0) pre c hc hcp
    simpa using this

/-- Witness of C7: the pass in which the second planning fails, observed up to
the point where it offers its notification channel to the persister. -/
theorem mergerLoop_refs_balanced_witness :
    ([.addRef 0, .decRef 0] : List LoopEvent) <+: mergerLoop 0 [secondPlanFails] ∧
    ([.addRef 0, .decRef 0] ++ [LoopEvent.offerNotify]) <+: mergerLoop 0 [secondPlanFails] ∧
    releases [.addRef 0, .decRef 0] = acquisitions [.addRef 0, .decRef 0] :=
  ⟨by decide, by decide,
   ((mergerLoop_refs_balanced 0 [secondPlanFails] [.addRef 0, .decRef 0] (by decide)).2
      .offerNotify (by decide) rfl).1⟩

/-! ### Theorems: errors and records of the merge workers -/

/-- C11 (the code at failing inputs): with the index not closing, a plan of one
task whose merge succeeds and whose open fails makes `mergeTasks` return one
error while one merge record, without a new segment, has been submitted to the
introducer for that same task; a task whose merge and open both fail sends two
errors and still submits a record when the response channel has room for two;
and with the plan's own channel of capacity one the second send never
completes, so `mergeTasks` does not return. -/
theorem mergeTasks_error_and_record_together :
    (mergeTasks openFails "idx" [] false initialMergerState singleTaskPlan).map
        (fun r => (r.1, r.2.merges.length, r.2.merges.map (fun sm => sm.new.isSome),
          r.2.responseCap))
      = some (["open failed"], 1, [false], 1) ∧
    (mergeOneTask mergeFails "idx" false roomyMergerState persistedTask).map
        (fun r => (r.1.responseCh, r.1.merges.length, r.2.2))
      = some (["merging failed: disk full", "no such file"], 1, false) ∧
    (mergeTasks mergeFails "idx" [] false initialMergerState singleTaskPlan).isNone = true := by
  refine ⟨by decide, by decide, by decide⟩

end Scorch
